import Mathlib

/-!
Shallow embedding of `src/current_thread.rs` (the current-thread executor of
futures-rs): the per-thread `CurrentRunner` state, the submission surface
(`execute`, `spawn`, `spawn_daemon`, `cancel_all_spawned`), the scheduler-handle
install/clear discipline (`set_schedule`), the session entry point
(`TaskRunner::enter`) and the drive loop (`TaskRunner::run`).

The scheduler and sleep collaborators live outside `src/`; the drive loop is
therefore modelled over a trace of `Tick` results produced by the scheduler,
together with the user actions (submissions, cancellation) the polled futures
perform during each tick.  Futures are identified by `Nat` ids; panics are
modelled as `Except.error` / `Option.none` results.
-/

namespace CurrentThread

/-- Outcome of `poll_future_notify` on a spawned future: `Ok(Async::Ready(a))`,
`Err(e)`, or `Ok(Async::NotReady)`.  The payload types are abstract. -/
inductive PollResult (α ε : Type) : Type
  | ready (a : α)
  | failure (e : ε)
  | not_ready
deriving DecidableEq

/-- The closure passed to `scheduler.tick` in `TaskRunner::run` (lines
425–430): `Ok(Ready(_)) | Err(_) => Async::Ready(spawned.daemon)`,
`Ok(NotReady) => Async::NotReady`.  `some d` stands for `Async::Ready(d)`
with `d` the entry's daemon flag; `none` for `Async::NotReady`. -/
def poll_step {α ε : Type} (daemon : Bool) (r : PollResult α ε) : Option Bool :=
  match r with
  | .ready _ => some daemon
  | .failure _ => some daemon
  | .not_ready => none

/-- The thread-local `CurrentRunner` (`CURRENT`): cancellation flag,
non-daemon counter and the optional scheduler handle (handles are `Nat`
ids standing for the raw pointer). -/
structure CurrentRunner where
  cancel : Bool
  nonDaemons : Nat
  schedule : Option Nat
deriving DecidableEq, Repr

/-- A thread's `CurrentRunner` at thread start (`thread_local!` initializer,
lines 152–156). -/
def freshRunner : CurrentRunner :=
  { cancel := false, nonDaemons := 0, schedule := none }

/-- The runner state together with the contents of the scheduler owned by the
running `TaskRunner`: the number of pending (scheduled, not yet finished)
primary and daemon entries. -/
structure World where
  runner : CurrentRunner
  pendingPrimary : Nat
  pendingDaemon : Nat
deriving DecidableEq, Repr

/-- `CurrentRunner::is_running`: `non_daemons > 0 && !cancel`. -/
def is_running (r : CurrentRunner) : Bool :=
  decide (0 < r.nonDaemons) && !r.cancel

/-- `CurrentRunner::cancel_all_executing`: set the cancel flag. -/
def cancel_all_executing (r : CurrentRunner) : CurrentRunner :=
  { r with cancel := true }

/-- `cancel_all_spawned`: runs `cancel_all_executing` through
`CurrentRunner::with`, which fails (`none`, a panic in the source) when no
scheduler handle is installed on the thread. -/
def cancel_all_spawned (r : CurrentRunner) : Option CurrentRunner :=
  match r.schedule with
  | some _ => some (cancel_all_executing r)
  | none => none

/-- `(*schedule).schedule(spawned)`: push a `SpawnedFuture` with the given
daemon flag into the scheduler. -/
def push_entry (daemon : Bool) (w : World) : World :=
  if daemon then { w with pendingDaemon := w.pendingDaemon + 1 }
  else { w with pendingPrimary := w.pendingPrimary + 1 }

/-- `execute(future, daemon)` (lines 296–321): if a scheduler handle is
installed, increment `non_daemons` when the future is not a daemon, then push
the entry, returning `Ok(())`; otherwise return
`Err(ExecuteError::new(Shutdown, future))`, the future carried back and the
state untouched. -/
def execute (t : Nat) (daemon : Bool) (w : World) : Except Nat Unit × World :=
  match w.runner.schedule with
  | some _ =>
      let w1 := if daemon then w
        else { w with runner := { w.runner with nonDaemons := w.runner.nonDaemons + 1 } }
      (.ok (), push_entry daemon w1)
  | none => (.error t, w)

/-- `TaskExecutor::execute`: the capability object submits as non-daemon. -/
def TaskExecutor_execute (t : Nat) (w : World) : Except Nat Unit × World :=
  execute t false w

/-- `DaemonExecutor::execute`: the capability object submits as daemon. -/
def DaemonExecutor_execute (t : Nat) (w : World) : Except Nat Unit × World :=
  execute t true w

/-- `spawn`: `execute(future, false)`, panicking (`none`) on `Err`. -/
def spawn (t : Nat) (w : World) : Option World :=
  match execute t false w with
  | (.ok _, w1) => some w1
  | (.error _, _) => none

/-- `spawn_daemon`: `execute(future, true)`, panicking (`none`) on `Err`. -/
def spawn_daemon (t : Nat) (w : World) : Option World :=
  match execute t true w with
  | (.ok _, w1) => some w1
  | (.error _, _) => none

/-- A call a polled future (or the init closure) makes into the executor:
submitting a future through `execute`, or `cancel_all_spawned`. -/
inductive UserAct : Type
  | exec (t : Nat) (daemon : Bool)
  | cancel
deriving DecidableEq, Repr

/-- Apply one user action.  `cancel` goes through `cancel_all_spawned`; its
fallback branch (no handle installed, a panic in the source) is unreachable
from the poll window, where the handle is always installed, and is modelled
as leaving the state unchanged only for totality. -/
def apply_act (w : World) (a : UserAct) : World :=
  match a with
  | .exec t daemon => (execute t daemon w).2
  | .cancel =>
      match cancel_all_spawned w.runner with
      | some r => { w with runner := r }
      | none => w

/-- Run a list of user actions left to right. -/
def runActs (w : World) (acts : List UserAct) : World :=
  acts.foldl apply_act w

/-- Install handle `h` into the thread's `schedule` slot. -/
def install (h : Nat) (w : World) : World :=
  { w with runner := { w.runner with schedule := some h } }

/-- Clear the thread's `schedule` slot (the `Reset` drop guard). -/
def clear_slot (w : World) : World :=
  { w with runner := { w.runner with schedule := none } }

/-- `CurrentRunner::set_schedule` (lines 502–520): install the handle, run the
body, and clear the slot on every exit path — the `Reset` guard sets the slot
to `None` both on normal return (`.ok`) and on panic (`.error`, which carries
the state at unwind time). -/
def set_schedule {R : Type} (w : World) (h : Nat)
    (body : World → Except World (R × World)) : Except World (R × World) :=
  match body (install h w) with
  | .ok (r, w2) => .ok (r, clear_slot w2)
  | .error w2 => .error (clear_slot w2)

/-- The state a `set_schedule` call leaves behind, on either exit path. -/
def exitState {R : Type} (e : Except World (R × World)) : World :=
  match e with
  | .ok (_, w2) => w2
  | .error w2 => w2

/-- `scheduler.tick` as seen by `TaskRunner::run`: a completed entry (with the
user actions its polls performed and its daemon flag), no ready entries, or
the transient `Inconsistent` state.

Modelled from the spec: the `Scheduler` collaborator lives outside `src/`;
per the spec, `Empty` means no ready entries at all and runs no user code,
and `Inconsistent` is a transient race that runs no user code either. -/
inductive Tick : Type
  | data (acts : List UserAct) (is_daemon : Bool)
  | empty
  | inconsistent
deriving DecidableEq, Repr

/-- The scheduler destroys the completed entry inside `tick`. -/
def remove_entry (daemon : Bool) (w : World) : World :=
  if daemon then { w with pendingDaemon := w.pendingDaemon - 1 }
  else { w with pendingPrimary := w.pendingPrimary - 1 }

/-- One `tick` that completes an entry: `set_schedule` installs the handle
around the poll closure (handle id 0 standing for `&mut runner.scheduler`),
the polls run the user actions, the `Reset` guard clears the slot, and the
scheduler releases the finished entry. -/
def tick_poll (acts : List UserAct) (daemon : Bool) (w : World) : World :=
  remove_entry daemon (clear_slot (runActs (install 0 w) acts))

/-- Observable actions of a drive-loop iteration other than bookkeeping:
`sleep.sleep()` and `thread::yield_now()`. -/
inductive Effect : Type
  | sleep
  | yield_now
deriving DecidableEq, Repr

/-- The body of one drive-loop iteration (`TaskRunner::run`, lines 409–462):
tick the scheduler, then match on the result — `Data(is_daemon)` decrements
`non_daemons` unless the entry was a daemon, `Empty` sleeps, `Inconsistent`
yields. -/
def step (w : World) (e : Tick) : World × List Effect :=
  match e with
  | .data acts daemon =>
      let w1 := tick_poll acts daemon w
      if daemon then (w1, [])
      else ({ w1 with runner := { w1.runner with nonDaemons := w1.runner.nonDaemons - 1 } }, [])
  | .empty => (w, [.sleep])
  | .inconsistent => (w, [.yield_now])

/-- Result of driving the loop over a finite trace of tick results: the final
state, the ticks left unconsumed (nonempty exactly when the guard tripped
while the environment still had events), and the effects emitted. -/
structure RunRes where
  w : World
  rest : List Tick
  effs : List Effect
deriving DecidableEq, Repr

/-- `TaskRunner::run`: `while current.is_running() { … }`, driven by the
trace of tick results.  The guard is re-checked before every iteration; when
it fails the remaining trace is returned untouched. -/
def runAux (w : World) : List Tick → RunRes
  | [] => ⟨w, [], []⟩
  | e :: rest =>
      if is_running w.runner then
        let (w1, effs) := step w e
        let r := runAux w1 rest
        ⟨r.w, r.rest, effs ++ r.effs⟩
      else ⟨w, e :: rest, []⟩

/-- `TaskRunner::enter` (lines 356–402): assert no handle is installed
(`.error r`, a panic leaving the thread state untouched, when one is), build
a fresh `TaskRunner` (empty scheduler), run the init closure inside
`set_schedule`, then run the drive loop.  The scheduler and its remaining
entries are dropped on return; the thread keeps only the `CurrentRunner`. -/
def enter (r : CurrentRunner) (acts : List UserAct) (evs : List Tick) :
    Except CurrentRunner (CurrentRunner × List Tick) :=
  match r.schedule with
  | some _ => .error r
  | none =>
      let w0 : World := { runner := r, pendingPrimary := 0, pendingDaemon := 0 }
      match set_schedule w0 0 (fun w => .ok ((), runActs w acts)) with
      | .error w1 => .error w1.runner
      | .ok (_, w1) =>
          let res := runAux w1 evs
          .ok (res.w.runner, res.rest)

/-! ### Helper lemmas -/

@[simp]
theorem push_entry_runner (d : Bool) (w : World) : (push_entry d w).runner = w.runner := by
  cases d <;> simp [push_entry]

@[simp]
theorem remove_entry_runner (d : Bool) (w : World) : (remove_entry d w).runner = w.runner := by
  cases d <;> simp [remove_entry]

@[simp]
theorem clear_slot_cancel (w : World) : (clear_slot w).runner.cancel = w.runner.cancel := rfl

@[simp]
theorem clear_slot_nonDaemons (w : World) : (clear_slot w).runner.nonDaemons = w.runner.nonDaemons := rfl

@[simp]
theorem install_cancel (h : Nat) (w : World) : (install h w).runner.cancel = w.runner.cancel := rfl

@[simp]
theorem install_nonDaemons (h : Nat) (w : World) : (install h w).runner.nonDaemons = w.runner.nonDaemons := rfl

@[simp]
theorem install_schedule (h : Nat) (w : World) : (install h w).runner.schedule = some h := rfl

theorem apply_act_schedule (w : World) (a : UserAct) :
    (apply_act w a).runner.schedule = w.runner.schedule := by
  cases a with
  | exec t d =>
      simp only [apply_act, execute]
      cases h : w.runner.schedule with
      | some x => cases d <;> simp [h]
      | none => simp [h]
  | cancel =>
      simp only [apply_act, cancel_all_spawned]
      cases h : w.runner.schedule with
      | some x => simp [cancel_all_executing, h]
      | none => simp [h]

theorem apply_act_nonDaemons_le (w : World) (a : UserAct) :
    w.runner.nonDaemons ≤ (apply_act w a).runner.nonDaemons := by
  cases a with
  | exec t d =>
      simp only [apply_act, execute]
      cases h : w.runner.schedule with
      | some x => cases d <;> simp
      | none => simp
  | cancel =>
      simp only [apply_act, cancel_all_spawned]
      cases h : w.runner.schedule with
      | some x => simp [cancel_all_executing]
      | none => simp

theorem apply_act_cancel_mono (w : World) (a : UserAct)
    (h : w.runner.cancel = true) : (apply_act w a).runner.cancel = true := by
  cases a with
  | exec t d =>
      simp only [apply_act, execute]
      cases hs : w.runner.schedule with
      | some x => cases d <;> simp [h]
      | none => simpa using h
  | cancel =>
      simp only [apply_act, cancel_all_spawned]
      cases hs : w.runner.schedule with
      | some x => simp [cancel_all_executing]
      | none => simpa using h

theorem apply_act_cancel_set (w : World) (h0 : Nat)
    (h : w.runner.schedule = some h0) :
    (apply_act w UserAct.cancel).runner.cancel = true := by
  simp [apply_act, cancel_all_spawned, h, cancel_all_executing]

theorem runActs_schedule (acts : List UserAct) (w : World) :
    (runActs w acts).runner.schedule = w.runner.schedule := by
  induction acts generalizing w with
  | nil => rfl
  | cons a rest ih =>
      simp only [runActs, List.foldl_cons] at *
      rw [ih (apply_act w a), apply_act_schedule]

theorem runActs_nonDaemons_le (acts : List UserAct) (w : World) :
    w.runner.nonDaemons ≤ (runActs w acts).runner.nonDaemons := by
  induction acts generalizing w with
  | nil => exact Nat.le_refl _
  | cons a rest ih =>
      simp only [runActs, List.foldl_cons] at *
      exact Nat.le_trans (apply_act_nonDaemons_le w a) (ih (apply_act w a))

theorem runActs_cancel_mono (acts : List UserAct) (w : World)
    (h : w.runner.cancel = true) : (runActs w acts).runner.cancel = true := by
  induction acts generalizing w with
  | nil => exact h
  | cons a rest ih =>
      simp only [runActs, List.foldl_cons] at *
      exact ih (apply_act w a) (apply_act_cancel_mono w a h)

theorem runActs_cancel_of_mem (acts : List UserAct) (w : World) (h0 : Nat)
    (hs : w.runner.schedule = some h0) (hm : UserAct.cancel ∈ acts) :
    (runActs w acts).runner.cancel = true := by
  induction acts generalizing w with
  | nil => cases hm
  | cons a rest ih =>
      simp only [runActs, List.foldl_cons] at *
      rcases List.mem_cons.mp hm with h1 | h1
      · subst h1
        exact runActs_cancel_mono rest _ (apply_act_cancel_set w h0 hs)
      · exact ih _ (by rw [apply_act_schedule]; exact hs) h1

/-- `non_daemons = pendingPrimary` is preserved by every user action. -/
theorem apply_act_inv (w : World) (a : UserAct)
    (h : w.runner.nonDaemons = w.pendingPrimary) :
    (apply_act w a).runner.nonDaemons = (apply_act w a).pendingPrimary := by
  cases a with
  | exec t d =>
      simp only [apply_act, execute]
      cases hs : w.runner.schedule with
      | some x => cases d <;> simp [push_entry, h]
      | none => simpa using h
  | cancel =>
      simp only [apply_act, cancel_all_spawned]
      cases hs : w.runner.schedule with
      | some x => simpa [cancel_all_executing] using h
      | none => simpa using h

theorem runActs_inv (acts : List UserAct) (w : World)
    (h : w.runner.nonDaemons = w.pendingPrimary) :
    (runActs w acts).runner.nonDaemons = (runActs w acts).pendingPrimary := by
  induction acts generalizing w with
  | nil => exact h
  | cons a rest ih =>
      simp only [runActs, List.foldl_cons] at *
      exact ih _ (apply_act_inv w a h)

theorem step_inv (w : World) (e : Tick)
    (h : w.runner.nonDaemons = w.pendingPrimary) :
    (step w e).1.runner.nonDaemons = (step w e).1.pendingPrimary := by
  cases e with
  | data acts d =>
      have h1 : (runActs (install 0 w) acts).runner.nonDaemons
          = (runActs (install 0 w) acts).pendingPrimary :=
        runActs_inv acts (install 0 w) (by simpa [install] using h)
      cases d <;> simp [step, tick_poll, remove_entry, clear_slot, h1]
  | empty => simpa [step] using h
  | inconsistent => simpa [step] using h

theorem runAux_inv (evs : List Tick) (w : World)
    (h : w.runner.nonDaemons = w.pendingPrimary) :
    (runAux w evs).w.runner.nonDaemons = (runAux w evs).w.pendingPrimary := by
  induction evs generalizing w with
  | nil => exact h
  | cons e rest ih =>
      by_cases hr : is_running w.runner = true
      · simp only [runAux, hr, if_true]
        exact ih _ (step_inv w e h)
      · simp only [runAux, Bool.not_eq_true] at hr
        simp [runAux, hr]
        exact h

theorem runAux_not_running (w : World) (e : Tick) (rest : List Tick)
    (h : is_running w.runner = false) :
    runAux w (e :: rest) = ⟨w, e :: rest, []⟩ := by
  simp [runAux, h]

theorem runAux_rest_ne (evs : List Tick) (w : World)
    (h : (runAux w evs).rest ≠ []) :
    is_running (runAux w evs).w.runner = false := by
  induction evs generalizing w with
  | nil => simp [runAux] at h
  | cons e rest ih =>
      by_cases hr : is_running w.runner = true
      · simp only [runAux, hr, if_true] at h ⊢
        exact ih _ h
      · simp only [Bool.not_eq_true] at hr
        rw [runAux_not_running w e rest hr]
        exact hr

theorem not_running_iff (r : CurrentRunner) :
    is_running r = false ↔ r.nonDaemons = 0 ∨ r.cancel = true := by
  simp only [is_running, Bool.and_eq_false_iff, decide_eq_false_iff_not,
    Bool.not_eq_false, Nat.not_lt, Nat.le_zero]
  cases r.cancel <;> simp

theorem cancelled_not_running (r : CurrentRunner) (h : r.cancel = true) :
    is_running r = false := by
  simp [is_running, h]

theorem running_pos (r : CurrentRunner) (h : is_running r = true) :
    0 < r.nonDaemons := by
  have h1 := (Bool.and_eq_true _ _).mp h
  exact of_decide_eq_true h1.1

/-- Unfolding of one drive-loop iteration taken while the guard holds. -/
theorem runAux_cons_running (w : World) (e : Tick) (rest : List Tick)
    (h : is_running w.runner = true) :
    runAux w (e :: rest)
      = ⟨(runAux (step w e).1 rest).w, (runAux (step w e).1 rest).rest,
         (step w e).2 ++ (runAux (step w e).1 rest).effs⟩ := by
  rcases hs : step w e with ⟨w1, effs⟩
  simp [runAux, h, hs]

/-! ### Claim theorems -/

/-- Claim C5: with no scheduler handle installed on the thread, the
capability-object path (`execute`, also `TaskExecutor::execute` and
`DaemonExecutor::execute`) returns the `Shutdown` rejection as a value
carrying the task back with the state unchanged, while `spawn`,
`spawn_daemon` and `cancel_all_spawned` escalate to a panic (`none`) and
never silently no-op. -/
theorem no_session_submission (t : Nat) (w : World)
    (h : w.runner.schedule = none) :
    execute t false w = (Except.error t, w)
    ∧ execute t true w = (Except.error t, w)
    ∧ TaskExecutor_execute t w = (Except.error t, w)
    ∧ DaemonExecutor_execute t w = (Except.error t, w)
    ∧ spawn t w = none
    ∧ spawn_daemon t w = none
    ∧ cancel_all_spawned w.runner = none := by
  simp [execute, TaskExecutor_execute, DaemonExecutor_execute, spawn, spawn_daemon,
    cancel_all_spawned, h]

/-- Witness for C5 at a fresh thread state and future id 7. -/
theorem no_session_submission_witness :
    execute 7 false ⟨freshRunner, 0, 0⟩ = (Except.error 7, ⟨freshRunner, 0, 0⟩)
    ∧ execute 7 true ⟨freshRunner, 0, 0⟩ = (Except.error 7, ⟨freshRunner, 0, 0⟩)
    ∧ TaskExecutor_execute 7 ⟨freshRunner, 0, 0⟩ = (Except.error 7, ⟨freshRunner, 0, 0⟩)
    ∧ DaemonExecutor_execute 7 ⟨freshRunner, 0, 0⟩ = (Except.error 7, ⟨freshRunner, 0, 0⟩)
    ∧ spawn 7 ⟨freshRunner, 0, 0⟩ = none
    ∧ spawn_daemon 7 ⟨freshRunner, 0, 0⟩ = none
    ∧ cancel_all_spawned (World.runner ⟨freshRunner, 0, 0⟩) = none :=
  no_session_submission 7 ⟨freshRunner, 0, 0⟩ rfl

/-- Claim C7: a successful completion and an error completion of a poll are
mapped to the same "finished" outcome carrying only the entry's daemon flag,
a not-ready poll is mapped to "not finished", and the payload of the task's
own success or error never influences the outcome. -/
theorem poll_outcome_folding {α ε : Type} (daemon : Bool) (a a' : α) (e e' : ε) :
    poll_step daemon (PollResult.ready a : PollResult α ε) = some daemon
    ∧ poll_step daemon (PollResult.failure e : PollResult α ε) = some daemon
    ∧ poll_step daemon (PollResult.not_ready : PollResult α ε) = none
    ∧ poll_step daemon (PollResult.ready a : PollResult α ε)
        = poll_step daemon (PollResult.failure e : PollResult α ε)
    ∧ poll_step daemon (PollResult.ready a : PollResult α ε)
        = poll_step daemon (PollResult.ready a' : PollResult α ε)
    ∧ poll_step daemon (PollResult.failure e : PollResult α ε)
        = poll_step daemon (PollResult.failure e' : PollResult α ε) := by
  simp [poll_step]

/-- Claim C8: a session entry-point call made while a session is already
active on the thread (a scheduler handle is installed) fails fatally on the
inner call, runs no inner drive loop, and leaves the outer session's state —
cancel flag, counter and installed handle — untouched. -/
theorem nested_enter_fails (r : CurrentRunner) (h0 : Nat) (acts : List UserAct)
    (evs : List Tick) (h : r.schedule = some h0) :
    enter r acts evs = Except.error r := by
  simp [enter, h]

/-- Witness for C8: a nested call over an installed handle 5. -/
theorem nested_enter_fails_witness :
    enter ⟨false, 1, some 5⟩ [] [] = Except.error ⟨false, 1, some 5⟩ :=
  nested_enter_fails ⟨false, 1, some 5⟩ 5 [] [] rfl

/-- Counterexample to C6 as stated: `set_schedule` itself does not assert
that no handle is already installed — invoked on a thread state whose slot
already holds handle 5, it returns normally (no panic), silently overwriting
the slot for the body and clearing it on exit. -/
theorem set_schedule_no_assert_cex :
    set_schedule ⟨⟨false, 2, some 5⟩, 0, 0⟩ 7 (fun w1 => Except.ok ((), w1))
      = Except.ok ((), ⟨⟨false, 2, none⟩, 0, 0⟩) := rfl

/-- Claim C6, amended: `set_schedule` installs the handle for exactly the
dynamic extent of the body and unconditionally clears the slot on every exit
path, normal return and panic alike; the assertion that no handle is already
installed is performed by the session entry point (`TaskRunner::enter`)
before the first installation, not by `set_schedule`, which overwrites an
occupied slot. -/
theorem set_schedule_install_clear {R : Type} (w : World) (h0 : Nat)
    (body : World → Except World (R × World)) (r : CurrentRunner)
    (acts : List UserAct) (evs : List Tick) (h1 : Nat) :
    (exitState (set_schedule w h0 body)).runner.schedule = none
    ∧ set_schedule w h0 (fun w1 => Except.ok (w1.runner.schedule, w1))
        = Except.ok (some h0, clear_slot w)
    ∧ (r.schedule = some h1 → enter r acts evs = Except.error r) := by
  refine ⟨?_, ?_, fun h => by simp [enter, h]⟩
  · unfold set_schedule exitState
    cases body (install h0 w) with
    | ok p => rcases p with ⟨rv, w2⟩; simp [clear_slot]
    | error w2 => simp [clear_slot]
  · have hcl : clear_slot (install h0 w) = clear_slot w := by
      simp [clear_slot, install]
    simp only [set_schedule, install_schedule, hcl]

/-- Witness for C6's amended claim: the entry-point assertion at an occupied
slot. -/
theorem set_schedule_install_clear_witness :
    enter ⟨false, 0, some 9⟩ [] [] = Except.error ⟨false, 0, some 9⟩ :=
  (set_schedule_install_clear (R := Unit) ⟨⟨false, 0, some 9⟩, 0, 0⟩ 0
    (fun w1 => Except.ok ((), w1)) ⟨false, 0, some 9⟩ [] [] 9).2.2 rfl

/-- Claim C2 fails on the code (code bug): the thread-local `CurrentRunner`
is never reset at a session boundary.  Session 1 spawns a primary future and
cancels; the thread is left with `cancel = true` and `non_daemons = 1`.
Session 2 on the same thread then starts with that stale state: its freshly
spawned primary future is never polled (the tick trace is returned
unconsumed) and the session returns immediately. -/
theorem session_boundary_not_reset :
    enter freshRunner [UserAct.exec 0 false, UserAct.cancel] []
      = Except.ok (⟨true, 1, none⟩, [])
    ∧ enter ⟨true, 1, none⟩ [UserAct.exec 1 false] [Tick.empty]
      = Except.ok (⟨true, 2, none⟩, [Tick.empty]) :=
  ⟨rfl, rfl⟩

/-- Claim C10: the primary-counter decrement on `Tick::Data(daemon = false)`
never underflows — when the iteration started with the guard true, the
counter is still strictly positive at the decrement point (nothing in the
iteration before it can decrease it), so the `debug_assert!` is valid and
the subtraction decrements by exactly one. -/
theorem non_daemons_no_underflow (w : World) (acts : List UserAct)
    (h : is_running w.runner = true) :
    0 < (tick_poll acts false w).runner.nonDaemons
    ∧ (step w (Tick.data acts false)).1.runner.nonDaemons + 1
        = (tick_poll acts false w).runner.nonDaemons := by
  have hpos : 0 < w.runner.nonDaemons := running_pos _ h
  have hle : w.runner.nonDaemons ≤ (tick_poll acts false w).runner.nonDaemons := by
    simp only [tick_poll, remove_entry_runner, clear_slot_nonDaemons]
    simpa using runActs_nonDaemons_le acts (install 0 w)
  have h2 : 0 < (tick_poll acts false w).runner.nonDaemons := Nat.lt_of_lt_of_le hpos hle
  refine ⟨h2, ?_⟩
  simp only [step, if_neg Bool.false_ne_true]
  omega

/-- Witness for C10: one primary entry, ready and completing at once. -/
theorem non_daemons_no_underflow_witness :
    0 < (tick_poll [] false ⟨⟨false, 1, none⟩, 1, 0⟩).runner.nonDaemons
    ∧ (step ⟨⟨false, 1, none⟩, 1, 0⟩ (Tick.data [] false)).1.runner.nonDaemons + 1
        = (tick_poll [] false ⟨⟨false, 1, none⟩, 1, 0⟩).runner.nonDaemons :=
  non_daemons_no_underflow ⟨⟨false, 1, none⟩, 1, 0⟩ [] (by decide)

/-- Claim C9: while the loop is running, a `Tick::Empty` result causes
exactly one `sleep()` call and leaves the state unchanged before the next
guard check; a `Tick::Inconsistent` result causes exactly one
`yield_now()` and retries immediately without parking; a `Tick::Data`
iteration emits neither. -/
theorem tick_empty_sleep_inconsistent_yield (w : World) (rest : List Tick)
    (acts : List UserAct) (d : Bool) (h : is_running w.runner = true) :
    runAux w (Tick.empty :: rest)
      = ⟨(runAux w rest).w, (runAux w rest).rest, Effect.sleep :: (runAux w rest).effs⟩
    ∧ runAux w (Tick.inconsistent :: rest)
      = ⟨(runAux w rest).w, (runAux w rest).rest, Effect.yield_now :: (runAux w rest).effs⟩
    ∧ (step w (Tick.data acts d)).2 = []
    ∧ step w Tick.empty = (w, [Effect.sleep])
    ∧ step w Tick.inconsistent = (w, [Effect.yield_now]) := by
  refine ⟨?_, ?_, ?_, rfl, rfl⟩
  · rw [runAux_cons_running w Tick.empty rest h]; simp [step]
  · rw [runAux_cons_running w Tick.inconsistent rest h]; simp [step]
  · cases d <;> simp [step]

/-- Witness for C9 at a running state with one pending primary entry. -/
theorem tick_empty_sleep_inconsistent_yield_witness :
    runAux ⟨⟨false, 1, none⟩, 1, 0⟩ [Tick.empty]
      = ⟨(runAux ⟨⟨false, 1, none⟩, 1, 0⟩ []).w, (runAux ⟨⟨false, 1, none⟩, 1, 0⟩ []).rest,
         Effect.sleep :: (runAux ⟨⟨false, 1, none⟩, 1, 0⟩ []).effs⟩
    ∧ runAux ⟨⟨false, 1, none⟩, 1, 0⟩ [Tick.inconsistent]
      = ⟨(runAux ⟨⟨false, 1, none⟩, 1, 0⟩ []).w, (runAux ⟨⟨false, 1, none⟩, 1, 0⟩ []).rest,
         Effect.yield_now :: (runAux ⟨⟨false, 1, none⟩, 1, 0⟩ []).effs⟩
    ∧ (step ⟨⟨false, 1, none⟩, 1, 0⟩ (Tick.data [] true)).2 = []
    ∧ step ⟨⟨false, 1, none⟩, 1, 0⟩ Tick.empty = (⟨⟨false, 1, none⟩, 1, 0⟩, [Effect.sleep])
    ∧ step ⟨⟨false, 1, none⟩, 1, 0⟩ Tick.inconsistent
        = (⟨⟨false, 1, none⟩, 1, 0⟩, [Effect.yield_now]) :=
  tick_empty_sleep_inconsistent_yield ⟨⟨false, 1, none⟩, 1, 0⟩ [] [] true (by decide)

/-- Claim C3: `cancel_all_executing` only sets the cancel flag (counter and
handle untouched); once the flag is set the loop consumes nothing more (every
remaining entry is dropped unpolled); and a tick whose polls include a
`cancel_all_spawned` call still completes its single step in full — the
effect is observed only at the next guard check, after which the loop exits
with the rest of the trace untouched. -/
theorem cancel_semantics (r : CurrentRunner) (w : World) (acts : List UserAct)
    (d : Bool) (evs rest : List Tick) :
    ((cancel_all_executing r).cancel = true
      ∧ (cancel_all_executing r).nonDaemons = r.nonDaemons
      ∧ (cancel_all_executing r).schedule = r.schedule)
    ∧ (w.runner.cancel = true → runAux w evs = ⟨w, evs, []⟩)
    ∧ (UserAct.cancel ∈ acts → is_running w.runner = true →
        runAux w (Tick.data acts d :: rest) = ⟨(step w (Tick.data acts d)).1, rest, []⟩) := by
  refine ⟨⟨rfl, rfl, rfl⟩, ?_, ?_⟩
  · intro hc
    cases evs with
    | nil => rfl
    | cons e rest' => exact runAux_not_running w e rest' (cancelled_not_running _ hc)
  · intro hm hr
    have hstep2 : (step w (Tick.data acts d)).2 = [] := by cases d <;> simp [step]
    have hcancel : (step w (Tick.data acts d)).1.runner.cancel = true := by
      have h1 : (runActs (install 0 w) acts).runner.cancel = true :=
        runActs_cancel_of_mem acts (install 0 w) 0 (install_schedule 0 w) hm
      cases d <;> simp [step, tick_poll, h1]
    have hstop : runAux (step w (Tick.data acts d)).1 rest
        = ⟨(step w (Tick.data acts d)).1, rest, []⟩ := by
      cases rest with
      | nil => rfl
      | cons e rest' => exact runAux_not_running _ e rest' (cancelled_not_running _ hcancel)
    rw [runAux_cons_running w _ rest hr, hstep2, hstop]
    simp

/-- Witness for C3: a running state whose single tick polls a future that
calls `cancel_all_spawned`, with one tick left in the trace. -/
theorem cancel_semantics_witness :
    ((cancel_all_executing ⟨false, 0, none⟩).cancel = true
      ∧ (cancel_all_executing ⟨false, 0, none⟩).nonDaemons
          = CurrentRunner.nonDaemons ⟨false, 0, none⟩
      ∧ (cancel_all_executing ⟨false, 0, none⟩).schedule
          = CurrentRunner.schedule ⟨false, 0, none⟩)
    ∧ (CurrentRunner.cancel (World.runner ⟨⟨false, 1, none⟩, 1, 0⟩) = true →
        runAux ⟨⟨false, 1, none⟩, 1, 0⟩ [] = ⟨⟨⟨false, 1, none⟩, 1, 0⟩, [], []⟩)
    ∧ (UserAct.cancel ∈ [UserAct.cancel] →
        is_running (World.runner ⟨⟨false, 1, none⟩, 1, 0⟩) = true →
        runAux ⟨⟨false, 1, none⟩, 1, 0⟩ [Tick.data [UserAct.cancel] false, Tick.empty]
          = ⟨(step ⟨⟨false, 1, none⟩, 1, 0⟩ (Tick.data [UserAct.cancel] false)).1,
             [Tick.empty], []⟩) :=
  cancel_semantics ⟨false, 0, none⟩ ⟨⟨false, 1, none⟩, 1, 0⟩ [UserAct.cancel] false [] [Tick.empty]

/-- Claim C1: the drive-loop body executes only while
`non_daemons > 0 && !cancel` — when the guard is false the next tick is not
taken and the trace is returned untouched, and while it is true exactly one
iteration runs before the guard is re-checked; whenever the loop exits of
its own accord (trace left over), the guard is false, so — given the
counter/scheduler invariant — every primary entry submitted during the
session has finished or cancellation occurred. -/
theorem drive_loop_guard (w : World) (evs : List Tick) (e : Tick) (rest : List Tick) :
    (is_running w.runner = false → runAux w (e :: rest) = ⟨w, e :: rest, []⟩)
    ∧ (is_running w.runner = true →
        runAux w (e :: rest)
          = ⟨(runAux (step w e).1 rest).w, (runAux (step w e).1 rest).rest,
             (step w e).2 ++ (runAux (step w e).1 rest).effs⟩)
    ∧ ((runAux w evs).rest ≠ [] →
        (runAux w evs).w.runner.nonDaemons = 0 ∨ (runAux w evs).w.runner.cancel = true)
    ∧ (w.runner.nonDaemons = w.pendingPrimary → (runAux w evs).rest ≠ [] →
        (runAux w evs).w.pendingPrimary = 0 ∨ (runAux w evs).w.runner.cancel = true) := by
  refine ⟨fun h => runAux_not_running w e rest h, fun h => runAux_cons_running w e rest h,
    ?_, ?_⟩
  · intro hne
    exact (not_running_iff _).mp (runAux_rest_ne evs w hne)
  · intro hinv hne
    rcases (not_running_iff _).mp (runAux_rest_ne evs w hne) with h0 | hc
    · exact Or.inl (by rw [← runAux_inv evs w hinv]; exact h0)
    · exact Or.inr hc

/-- Witness for C1: one primary entry completing on the first tick, a second
tick left over: the loop exits with no pending primary. -/
theorem drive_loop_guard_witness :
    (runAux ⟨⟨false, 1, none⟩, 1, 0⟩ [Tick.data [] false, Tick.empty]).w.pendingPrimary = 0
      ∨ (runAux ⟨⟨false, 1, none⟩, 1, 0⟩ [Tick.data [] false, Tick.empty]).w.runner.cancel
          = true :=
  (drive_loop_guard ⟨⟨false, 1, none⟩, 1, 0⟩ [Tick.data [] false, Tick.empty]
    Tick.empty []).2.2.2 rfl (by decide)

/-- Claim C4: within a session `non_daemons` tracks the number of scheduled
primary entries not yet finished — a primary submission through `execute`
increments the counter by exactly one and pushes exactly one primary entry,
a daemon submission changes neither, a primary completion decrements the
counter by exactly one and a daemon completion leaves it unchanged; hence
`non_daemons = pendingPrimary` is an invariant of the drive loop. -/
theorem primary_count_invariant (t h0 : Nat) (w : World) (evs : List Tick) :
    (w.runner.schedule = some h0 →
        (execute t false w).2.runner.nonDaemons = w.runner.nonDaemons + 1
        ∧ (execute t false w).2.pendingPrimary = w.pendingPrimary + 1
        ∧ (execute t false w).2.pendingDaemon = w.pendingDaemon
        ∧ (execute t true w).2.runner.nonDaemons = w.runner.nonDaemons
        ∧ (execute t true w).2.pendingPrimary = w.pendingPrimary
        ∧ (execute t true w).2.pendingDaemon = w.pendingDaemon + 1)
    ∧ (is_running w.runner = true →
        (step w (Tick.data [] false)).1.runner.nonDaemons + 1 = w.runner.nonDaemons
        ∧ (step w (Tick.data [] true)).1.runner.nonDaemons = w.runner.nonDaemons)
    ∧ (w.runner.nonDaemons = w.pendingPrimary →
        (runAux w evs).w.runner.nonDaemons = (runAux w evs).w.pendingPrimary) := by
  refine ⟨fun h => ?_, fun h => ?_, fun h => runAux_inv evs w h⟩
  · simp [execute, h, push_entry]
  · have hpos : 0 < w.runner.nonDaemons := running_pos _ h
    constructor
    · simp only [step, if_neg Bool.false_ne_true, tick_poll, remove_entry_runner,
        clear_slot_nonDaemons, runActs, List.foldl_nil, install_nonDaemons]
      omega
    · simp [step, tick_poll, runActs, remove_entry, clear_slot, install]

/-- Witness for C4 at a running state with an installed handle. -/
theorem primary_count_invariant_witness :
    (execute 3 false ⟨⟨false, 1, some 0⟩, 1, 0⟩).2.runner.nonDaemons
        = CurrentRunner.nonDaemons (World.runner ⟨⟨false, 1, some 0⟩, 1, 0⟩) + 1
    ∧ (step ⟨⟨false, 1, some 0⟩, 1, 0⟩ (Tick.data [] false)).1.runner.nonDaemons + 1
        = CurrentRunner.nonDaemons (World.runner ⟨⟨false, 1, some 0⟩, 1, 0⟩)
    ∧ (runAux ⟨⟨false, 1, some 0⟩, 1, 0⟩ [Tick.data [] false]).w.runner.nonDaemons
        = (runAux ⟨⟨false, 1, some 0⟩, 1, 0⟩ [Tick.data [] false]).w.pendingPrimary :=
  ⟨((primary_count_invariant 3 0 ⟨⟨false, 1, some 0⟩, 1, 0⟩ []).1 rfl).1,
   ((primary_count_invariant 3 0 ⟨⟨false, 1, some 0⟩, 1, 0⟩ []).2.1 (by decide)).1,
   (primary_count_invariant 3 0 ⟨⟨false, 1, some 0⟩, 1, 0⟩ [Tick.data [] false]).2.2 rfl⟩

end CurrentThread
